import Mathlib

/-
  Verification of the chora-cloud workspace sync coordinator (SyncRoom).

  Shallow embedding of src/sync.ts (the SyncRoom Durable Object), src/types.ts
  and the REST fallback surface.  JavaScript numbers that only ever hold
  integer values are modelled as Int; `parseInt` returning NaN is modelled as
  `Option Int` with `none` for NaN (every JS comparison against NaN is false).
  WebSocket handles are modelled as natural-number identifiers; a send to a
  closed socket raises, which the coordinator catches and drops, modelled by
  an explicit `dead` predicate threaded through the send helpers.  The
  external credential verifier (auth.ts `verifyToken`) and the durable
  key-value storage are modelled as explicit parameters: a `verify` oracle
  and a `StorageBehavior` record saying whether each `storage.put` succeeds.
-/

namespace ChoraCloud

/-- WebSocket handles, identified by a number. -/
abbrev WS := Nat

/-- types.ts `EncryptedChange.changeType`: "create" | "update" | "delete". -/
inductive ChangeType where
  | create
  | update
  | delete
deriving DecidableEq

/-- types.ts `EncryptedChange`: one opaque encrypted change record. -/
structure EncryptedChange where
  id : String
  entityId : String
  changeType : ChangeType
  encryptedData : String
  nonce : String
  siteId : String
  timestamp : String
  version : Int
deriving DecidableEq

/-- types.ts `PresenceMember`. -/
structure PresenceMember where
  accountId : String
  siteId : String
  joinedAt : String
  lastSeen : String
deriving DecidableEq

/-- types.ts `AuthToken`: payload of a verified bearer token. -/
structure AuthToken where
  accountId : String
  exp : Int
  iat : Int
deriving DecidableEq

/-- sync.ts `Session` (without the webSocket field, which is the map key). -/
structure Session where
  accountId : String
  siteId : String
  workspaceId : Option String
  joinedAt : String
  lastSeen : String
deriving DecidableEq

/-- types.ts `ServerMessage`. -/
inductive ServerMessage where
  | error (code : String) (message : String)
  | authenticated (accountId : String)
  | joined (workspaceId : String) (currentVersion : Int)
  | changes (changes : List EncryptedChange) (version : Int)
  | pushed (version : Int)
  | presence (members : List PresenceMember)
deriving DecidableEq

/-- The durable storage keys used by SyncRoom: "version" and "changes".
`none` models an absent key (JS `undefined`). -/
structure Storage where
  version : Option Int
  changes : Option (List EncryptedChange)
deriving DecidableEq

/-- Whether each `state.storage.put` call in `applyChanges` succeeds or
raises.  The durable store is external; its failure mode is a parameter. -/
structure StorageBehavior where
  putVersionOk : Bool
  putChangesOk : Bool
deriving DecidableEq

/-- sync.ts `SyncRoom` instance state: the sessions map (insertion-ordered,
keyed by WebSocket), the in-memory change log, the version counter, and the
backing durable storage. -/
structure SyncRoom where
  sessions : List (WS × Session)
  changes : List EncryptedChange
  currentVersion : Int
  storage : Storage
deriving DecidableEq

/-- JS truthiness of a `string | null` field: `null` and `""` are falsy. -/
def jsTruthyStr : Option String → Bool
  | none => false
  | some s => decide (s ≠ "")

/-- The precondition check in `handlePush`/`handlePull`:
`!session.accountId || !session.workspaceId`. -/
def notJoined (s : Session) : Bool :=
  decide (s.accountId = "") || !(jsTruthyStr s.workspaceId)

/-- `Map.set` semantics: overwrite in place if the key exists, else append. -/
def updateSession : List (WS × Session) → WS → Session → List (WS × Session)
  | [], w, s => [(w, s)]
  | (w', s') :: rest, w, s =>
      if w' = w then (w, s) :: rest else (w', s') :: updateSession rest w s

/-- Raw `ws.send`: raises when the peer socket is already closed/dead. -/
def rawSend (dead : WS → Bool) (ws : WS) (msg : ServerMessage) :
    Except Unit (WS × ServerMessage) :=
  if dead ws then Except.error () else Except.ok (ws, msg)

/-- sync.ts `SyncRoom.send` (and the try/catch around `ws.send` inside the
broadcast loops): a raised send is caught and dropped. -/
def send (dead : WS → Bool) (ws : WS) (msg : ServerMessage) :
    List (WS × ServerMessage) :=
  match rawSend dead ws msg with
  | Except.ok d => [d]
  | Except.error _ => []

/-- sync.ts `SyncRoom.sendError`. -/
def sendError (dead : WS → Bool) (ws : WS) (code message : String) :
    List (WS × ServerMessage) :=
  send dead ws (ServerMessage.error code message)

/-- The loop body of `SyncRoom.broadcast`: send to every session with a
truthy workspaceId, each send individually try/caught. -/
def broadcastList (dead : WS → Bool) (msg : ServerMessage) :
    List (WS × Session) → List (WS × ServerMessage)
  | [] => []
  | p :: rest =>
      (if jsTruthyStr p.2.workspaceId then send dead p.1 msg else []) ++
        broadcastList dead msg rest

/-- The loop body of `SyncRoom.broadcastExcept`: like `broadcast` but
skipping the sender's own socket. -/
def broadcastExceptList (dead : WS → Bool) (sender : WS) (msg : ServerMessage) :
    List (WS × Session) → List (WS × ServerMessage)
  | [] => []
  | p :: rest =>
      (if p.1 ≠ sender ∧ jsTruthyStr p.2.workspaceId then send dead p.1 msg
       else []) ++
        broadcastExceptList dead sender msg rest

/-- sync.ts `SyncRoom.broadcast`. -/
def broadcast (dead : WS → Bool) (room : SyncRoom) (msg : ServerMessage) :
    List (WS × ServerMessage) :=
  broadcastList dead msg room.sessions

/-- sync.ts `SyncRoom.broadcastExcept`. -/
def broadcastExcept (dead : WS → Bool) (sender : WS) (room : SyncRoom)
    (msg : ServerMessage) : List (WS × ServerMessage) :=
  broadcastExceptList dead sender msg room.sessions

/-- The member-collecting loop of `SyncRoom.broadcastPresence`:
`if (session.accountId && session.workspaceId)` push a snapshot. -/
def presenceMembers : List (WS × Session) → List PresenceMember
  | [] => []
  | p :: rest =>
      if p.2.accountId ≠ "" ∧ jsTruthyStr p.2.workspaceId then
        { accountId := p.2.accountId, siteId := p.2.siteId,
          joinedAt := p.2.joinedAt, lastSeen := p.2.lastSeen } ::
          presenceMembers rest
      else presenceMembers rest

/-- sync.ts `SyncRoom.broadcastPresence`. -/
def broadcastPresence (dead : WS → Bool) (room : SyncRoom) :
    List (WS × ServerMessage) :=
  broadcast dead room (ServerMessage.presence (presenceMembers room.sessions))

/-- The in-memory loop of `SyncRoom.applyChanges`: for each change,
increment `currentVersion`, overwrite `change.version`, append to the log. -/
def applyLoop (room : SyncRoom) : List EncryptedChange → SyncRoom
  | [] => room
  | c :: cs =>
      applyLoop
        { room with
            currentVersion := room.currentVersion + 1,
            changes :=
              room.changes ++ [{ c with version := room.currentVersion + 1 }] }
        cs

/-- The list of records as the `applyChanges` loop leaves them: the loop
mutates the submitted array's elements in place, so the array later handed to
the broadcast carries these server-assigned versions. -/
def assignVersions (cv : Int) : List EncryptedChange → List EncryptedChange
  | [] => []
  | c :: cs => { c with version := cv + 1 } :: assignVersions (cv + 1) cs

/-- sync.ts `SyncRoom.applyChanges`: run the version-assignment loop, then
`storage.put("version", ...)` and `storage.put("changes", ...)`.  The Bool
result records whether a put raised; the in-memory mutation survives a raise
because it happens before the puts. -/
def applyChanges (sb : StorageBehavior) (room : SyncRoom)
    (cs : List EncryptedChange) : SyncRoom × Bool :=
  let r := applyLoop room cs
  if sb.putVersionOk then
    let r1 := { r with storage := { r.storage with version := some r.currentVersion } }
    if sb.putChangesOk then
      ({ r1 with storage := { r1.storage with changes := some r1.changes } }, false)
    else (r1, true)
  else (r, true)

/-- sync.ts `SyncRoom.handlePush`.  Third component: whether a storage put
raised out of `applyChanges` (the exception propagates to the caller). -/
def handlePush (sb : StorageBehavior) (dead : WS → Bool) (ws : WS)
    (session : Session) (room : SyncRoom) (cs : List EncryptedChange) :
    SyncRoom × List (WS × ServerMessage) × Bool :=
  if notJoined session then
    (room, sendError dead ws "NOT_JOINED" "Must join a workspace first", false)
  else
    let ac := applyChanges sb room cs
    if ac.2 then (ac.1, [], true)
    else
      (ac.1,
       send dead ws (ServerMessage.pushed ac.1.currentVersion) ++
         broadcastExceptList dead ws
           (ServerMessage.changes (assignVersions room.currentVersion cs)
             ac.1.currentVersion)
           ac.1.sessions,
       false)

/-- sync.ts `SyncRoom.handlePull`. -/
def handlePull (dead : WS → Bool) (ws : WS) (session : Session)
    (room : SyncRoom) (sinceVersion : Int) :
    SyncRoom × List (WS × ServerMessage) :=
  if notJoined session then
    (room, sendError dead ws "NOT_JOINED" "Must join a workspace first")
  else
    (room,
     send dead ws
       (ServerMessage.changes
         (room.changes.filter (fun c => c.version > sinceVersion))
         room.currentVersion))

/-- The template literal building a siteId from "site-", the accountId and
the current time, joined by dashes. -/
def mkSiteId (accountId : String) (now : Nat) : String :=
  "site-" ++ accountId ++ "-" ++ toString now

/-- The session as `handleAuth` rewrites it on success: overwrite
`accountId` with the token's and re-derive `siteId` from it and the time. -/
def authedSession (session : Session) (accountId : String) (now : Nat) :
    Session :=
  { session with accountId := accountId, siteId := mkSiteId accountId now }

/-- sync.ts `SyncRoom.handleAuth`; `verify` is the external `verifyToken`. -/
def handleAuth (verify : String → Option AuthToken) (now : Nat)
    (dead : WS → Bool) (ws : WS) (session : Session) (room : SyncRoom)
    (token : String) : SyncRoom × List (WS × ServerMessage) :=
  match verify token with
  | none => (room, sendError dead ws "AUTH_FAILED" "Invalid or expired token")
  | some payload =>
      let session' := authedSession session payload.accountId now
      ({ room with sessions := updateSession room.sessions ws session' },
       send dead ws (ServerMessage.authenticated payload.accountId))

/-- sync.ts `SyncRoom.handleJoin`. -/
def handleJoin (dead : WS → Bool) (ws : WS) (session : Session)
    (room : SyncRoom) (workspaceId : String) :
    SyncRoom × List (WS × ServerMessage) :=
  if session.accountId = "" then
    (room, sendError dead ws "NOT_AUTHENTICATED" "Must authenticate first")
  else
    let session' := { session with workspaceId := some workspaceId }
    let room' := { room with sessions := updateSession room.sessions ws session' }
    (room',
     send dead ws (ServerMessage.joined workspaceId room.currentVersion) ++
       broadcastPresence dead room')

/-- sync.ts `SyncRoom.handleLeave`. -/
def handleLeave (dead : WS → Bool) (ws : WS) (session : Session)
    (room : SyncRoom) : SyncRoom × List (WS × ServerMessage) :=
  let session' := { session with workspaceId := none }
  let room' := { room with sessions := updateSession room.sessions ws session' }
  (room', broadcastPresence dead room')

/-- The `SyncRoom` constructor's storage reload: `currentVersion` from the
stored "version" key when defined (else the field initializer 0), `changes`
from the stored "changes" key when truthy (a stored empty array is truthy
and also yields the empty log).  Sessions start empty. -/
def restoreFromStorage (st : Storage) : SyncRoom :=
  { sessions := [],
    changes := st.changes.getD [],
    currentVersion := st.version.getD 0,
    storage := st }

/-- The session created by `handleWebSocket` before any auth. -/
def blankSession (nowIso : String) : Session :=
  { accountId := "", siteId := "", workspaceId := none,
    joinedAt := nowIso, lastSeen := nowIso }

/-- Numeric value of one character for a given radix, as JS `parseInt`
accepts it (decimal digits, then letters in either case). -/
def jsDigitVal (base : Nat) (c : Char) : Option Nat :=
  let v : Option Nat :=
    if '0' ≤ c ∧ c ≤ '9' then some (c.toNat - 48)
    else if 'a' ≤ c ∧ c ≤ 'z' then some (c.toNat - 87)
    else if 'A' ≤ c ∧ c ≤ 'Z' then some (c.toNat - 55)
    else none
  match v with
  | some d => if d < base then some d else none
  | none => none

/-- Accumulate the longest leading run of digits; stop at the first
non-digit. -/
def jsDigitsAcc (base : Nat) : List Char → Nat → Nat
  | [], acc => acc
  | c :: cs, acc =>
      match jsDigitVal base c with
      | some d => jsDigitsAcc base cs (acc * base + d)
      | none => acc

/-- Parse the leading digit run; `none` (NaN) when there is no digit. -/
def jsParseDigits (base : Nat) (cs : List Char) : Option Nat :=
  match cs with
  | [] => none
  | c :: rest =>
      match jsDigitVal base c with
      | none => none
      | some d => some (jsDigitsAcc base rest d)

/-- JS string whitespace as stripped by `parseInt` (common forms). -/
def jsWhitespace (c : Char) : Bool :=
  c = ' ' || c = '\t' || c = '\n' || c = '\r'

/-- JS `parseInt(s)` with no radix argument: strip whitespace, optional
sign, optional `0x`/`0X` hex prefix, then the longest leading digit run;
`none` models NaN.  Values are modelled as exact integers (the float
rounding of enormous digit strings is out of scope). -/
def jsParseInt (s : String) : Option Int :=
  let cs := s.toList.dropWhile jsWhitespace
  let signAndRest : Int × List Char :=
    match cs with
    | '-' :: rest => (-1, rest)
    | '+' :: rest => (1, rest)
    | _ => (1, cs)
  let baseAndRest : Nat × List Char :=
    match signAndRest.2 with
    | '0' :: 'x' :: rest => (16, rest)
    | '0' :: 'X' :: rest => (16, rest)
    | _ => (10, signAndRest.2)
  (jsParseDigits baseAndRest.1 baseAndRest.2).map (fun n => signAndRest.1 * n)

/-- `parseInt(url.searchParams.get("since") || "0")`: an absent or empty
parameter falls back to the string "0" before parsing. -/
def sinceOfParam (p : Option String) : Option Int :=
  jsParseInt
    (match p with
     | none => "0"
     | some s => if s = "" then "0" else s)

/-- JS `c.version > sinceVersion` where `sinceVersion` may be NaN (`none`):
every comparison against NaN is false. -/
def versionGt (v : Int) (since : Option Int) : Bool :=
  match since with
  | some n => decide (n < v)
  | none => false

/-- HTTP method of a stateless request. -/
inductive Method where
  | GET
  | POST
deriving DecidableEq

/-- A request as `SyncRoom.fetch` sees it: the Upgrade header, method, path,
the "since" query parameter, the Authorization header, and the JSON body of
a POST. -/
structure FetchRequest where
  upgrade : Bool
  method : Method
  pathname : String
  sinceParam : Option String
  authHeader : Option String
  body : List EncryptedChange
deriving DecidableEq

/-- The distinguishable responses of `SyncRoom.fetch`: 101 upgrade, a 200
`{changes, version}`, a 401 with an error string, a 200 `{success, version}`,
a storage exception escaping the handler, or 404. -/
inductive FetchResult where
  | wsUpgrade
  | changesResult (changes : List EncryptedChange) (version : Int)
  | unauthorizedResult (error : String)
  | pushedResult (version : Int)
  | storageThrew
  | notFoundResult
deriving DecidableEq

/-- `authHeader?.startsWith("Bearer ")` and `authHeader.slice(7)`. -/
def bearerToken : Option String → Option String
  | none => none
  | some h => if h.startsWith "Bearer " then some (h.drop 7) else none

/-- sync.ts `SyncRoom.fetch`: WebSocket upgrade, GET /changes (no
credential check), POST /changes (bearer check, then push and broadcast),
else 404.  Returns the room, the response, and the delivered messages. -/
def fetch (verify : String → Option AuthToken) (sb : StorageBehavior)
    (dead : WS → Bool) (newWs : WS) (nowIso : String) (req : FetchRequest)
    (room : SyncRoom) : SyncRoom × FetchResult × List (WS × ServerMessage) :=
  if req.upgrade then
    ({ room with sessions := updateSession room.sessions newWs (blankSession nowIso) },
     FetchResult.wsUpgrade, [])
  else if req.pathname = "/changes" ∧ req.method = Method.GET then
    (room,
     FetchResult.changesResult
       (room.changes.filter (fun c => versionGt c.version (sinceOfParam req.sinceParam)))
       room.currentVersion,
     [])
  else if req.pathname = "/changes" ∧ req.method = Method.POST then
    match bearerToken req.authHeader with
    | none => (room, FetchResult.unauthorizedResult "Unauthorized", [])
    | some token =>
        match verify token with
        | none => (room, FetchResult.unauthorizedResult "Invalid token", [])
        | some _ =>
            let ac := applyChanges sb room req.body
            if ac.2 then (ac.1, FetchResult.storageThrew, [])
            else
              (ac.1, FetchResult.pushedResult ac.1.currentVersion,
               broadcastList dead
                 (ServerMessage.changes (assignVersions room.currentVersion req.body)
                   ac.1.currentVersion)
                 ac.1.sessions)
  else (room, FetchResult.notFoundResult, [])

/-- A workspace instance that has never processed any operation. -/
def initialRoom : SyncRoom :=
  { sessions := [], changes := [], currentVersion := 0,
    storage := { version := none, changes := none } }

/-- A storage whose puts all succeed. -/
def okStorage : StorageBehavior := { putVersionOk := true, putChangesOk := true }

/-- No socket is dead: every send is delivered. -/
def noDead : WS → Bool := fun _ => false

/-- One push step as seen from the room state: any socket, any session, any
batch, storage healthy.  Used to range over arbitrary push sequences. -/
def pushStep (room : SyncRoom) (p : WS × Session × List EncryptedChange) :
    SyncRoom :=
  (handlePush okStorage noDead p.1 p.2.1 room p.2.2).1

/-- A whole sequence of pushes applied to one instance. -/
def pushSeq (room : SyncRoom) (pushes : List (WS × Session × List EncryptedChange)) :
    SyncRoom :=
  pushes.foldl pushStep room

/-- The list of versions 1, 2, ..., n. -/
def versionRange (n : Nat) : List Int :=
  (List.range n).map (fun (i : Nat) => (i : Int) + 1)

/-- The log/version-counter invariant of one workspace: the counter equals
the log length and the log's versions are exactly 1, 2, ..., length in
order. -/
def VersionInvariant (room : SyncRoom) : Prop :=
  room.currentVersion = (room.changes.length : Int) ∧
  room.changes.map (fun c => c.version) = versionRange room.changes.length

/-- A sample submitted change record; its client-supplied version 7 is
there to be overwritten by the coordinator. -/
def c0 : EncryptedChange :=
  { id := "c-1", entityId := "e-1", changeType := ChangeType.create,
    encryptedData := "ZGF0YQ", nonce := "bm9uY2U", siteId := "site-a",
    timestamp := "2024-01-01T00:00:00Z", version := 7 }

/-- The same record as the server stores it after the first push. -/
def c0v1 : EncryptedChange := { c0 with version := 1 }

/-- An authenticated session joined to workspace ws-1. -/
def sessJoined : Session :=
  { accountId := "acc-1", siteId := "site-acc-1-0", workspaceId := some "ws-1",
    joinedAt := "t0", lastSeen := "t0" }

/-- A second joined session under another account. -/
def sessJoined2 : Session :=
  { accountId := "acc-2", siteId := "site-acc-2-0", workspaceId := some "ws-1",
    joinedAt := "t0", lastSeen := "t0" }

/-- A freshly connected, unauthenticated session. -/
def sessUnauth : Session := blankSession "t0"

/-- A room holding one already-versioned record, with matching storage. -/
def roomOne : SyncRoom :=
  { sessions := [], changes := [c0v1], currentVersion := 1,
    storage := { version := some 1, changes := some [c0v1] } }

/-- A room with three joined sessions on sockets 0, 1, 2. -/
def roomThree : SyncRoom :=
  { sessions := [(0, sessJoined), (1, sessJoined), (2, sessJoined2)],
    changes := [], currentVersion := 0,
    storage := { version := none, changes := none } }

/-- Socket 1 is already dead; sends to it raise. -/
def deadOne : WS → Bool := fun w => decide (w = 1)

/-- A verifier accepting exactly one token, for concrete instances. -/
def verifyFix : String → Option AuthToken :=
  fun t =>
    if t = "tok-good" then some { accountId := "acc-1", exp := 99, iat := 0 }
    else none

/-- GET /changes?since=0 with no Authorization header. -/
def getNoAuthReq : FetchRequest :=
  { upgrade := false, method := Method.GET, pathname := "/changes",
    sinceParam := some "0", authHeader := none, body := [] }

/-- GET /changes?since= (parameter present but empty). -/
def getEmptySinceReq : FetchRequest :=
  { upgrade := false, method := Method.GET, pathname := "/changes",
    sinceParam := some "", authHeader := none, body := [] }

/-- POST /changes with no Authorization header. -/
def postNoAuthReq : FetchRequest :=
  { upgrade := false, method := Method.POST, pathname := "/changes",
    sinceParam := none, authHeader := none, body := [c0] }

/-- The version-assignment loop in closed form: it appends the submitted
records with versions currentVersion+1, ..., currentVersion+k. -/
theorem applyLoop_spec (cs : List EncryptedChange) (room : SyncRoom) :
    applyLoop room cs =
      { room with
          changes := room.changes ++ assignVersions room.currentVersion cs,
          currentVersion := room.currentVersion + cs.length } := by
  induction cs generalizing room with
  | nil => simp [applyLoop, assignVersions]
  | cons c cs ih =>
      rw [applyLoop, ih]
      simp only [assignVersions, SyncRoom.mk.injEq, List.length_cons]
      refine ⟨trivial, ?_, ?_, trivial⟩
      · simp
      · push_cast; ring

/-- Version assignment preserves the batch length. -/
theorem assignVersions_length (cv : Int) (cs : List EncryptedChange) :
    (assignVersions cv cs).length = cs.length := by
  induction cs generalizing cv with
  | nil => rfl
  | cons c cs ih => simp [assignVersions, ih]

/-- The versions given to a batch are cv+1, cv+2, ..., cv+k in order. -/
theorem assignVersions_map_version (cv : Int) (cs : List EncryptedChange) :
    (assignVersions cv cs).map (fun c => c.version) =
      (List.range cs.length).map (fun (i : Nat) => cv + (i : Int) + 1) := by
  induction cs generalizing cv with
  | nil => rfl
  | cons c cs ih =>
      simp only [assignVersions, List.map_cons, List.length_cons,
        List.range_succ_eq_map, List.map_map]
      refine congrArg₂ List.cons (by simp) ?_
      rw [ih]
      refine List.map_congr_left ?_
      intro i _
      simp only [Function.comp]
      push_cast
      ring

/-- The assigned versions do not depend on the client-supplied version
fields of the submitted records. -/
theorem assignVersions_version_ignored (cv : Int) (g : EncryptedChange → Int)
    (cs : List EncryptedChange) :
    assignVersions cv (cs.map (fun c => { c with version := g c })) =
      assignVersions cv cs := by
  induction cs generalizing cv with
  | nil => rfl
  | cons c cs ih => simp [assignVersions, ih]

/-- versionRange unrolled one step at the top. -/
theorem versionRange_succ (n : Nat) :
    versionRange (n + 1) = versionRange n ++ [(n : Int) + 1] := by
  simp [versionRange, List.range_succ]

/-- Appending a fresh contiguous block to 1..n gives 1..(n+k). -/
theorem versionRange_append (n k : Nat) :
    versionRange n ++ (List.range k).map (fun (i : Nat) => (n : Int) + (i : Int) + 1) =
      versionRange (n + k) := by
  induction k with
  | zero => simp
  | succ k ih =>
      rw [List.range_succ, List.map_append, ← List.append_assoc, ih,
        show n + (k + 1) = (n + k) + 1 from rfl, versionRange_succ]
      simp only [List.map_cons, List.map_nil]
      push_cast
      ring_nf

/-- Membership in 1..n is exactly the interval condition. -/
theorem mem_versionRange (n : Nat) (k : Int) :
    k ∈ versionRange n ↔ 1 ≤ k ∧ k ≤ (n : Int) := by
  simp only [versionRange, List.mem_map, List.mem_range]
  constructor
  · rintro ⟨i, hi, rfl⟩; omega
  · rintro ⟨h1, h2⟩
    exact ⟨(k - 1).toNat, by omega, by omega⟩

/-- 1..n is strictly increasing. -/
theorem pairwise_versionRange (n : Nat) :
    List.Pairwise (fun a b => a < b) (versionRange n) := by
  unfold versionRange
  exact List.Pairwise.map _ (fun a b hab => by omega) (List.pairwise_lt_range n)

/-- broadcastExcept delivers the message to exactly the live joined
sessions other than the sender, regardless of which sockets are dead. -/
theorem broadcastExceptList_eq (dead : WS → Bool) (sender : WS)
    (msg : ServerMessage) (l : List (WS × Session)) :
    broadcastExceptList dead sender msg l =
      (l.filter (fun p =>
          p.1 ≠ sender ∧ jsTruthyStr p.2.workspaceId = true ∧ dead p.1 = false)).map
        (fun p => (p.1, msg)) := by
  induction l with
  | nil => rfl
  | cons p rest ih =>
      by_cases h1 : p.1 = sender
      · simp [broadcastExceptList, ih, List.filter_cons, h1]
      · by_cases h2 : jsTruthyStr p.2.workspaceId
        · by_cases h3 : dead p.1
          · simp [broadcastExceptList, ih, List.filter_cons, h1, h2, h3,
              send, rawSend]
          · simp [broadcastExceptList, ih, List.filter_cons, h1, h2, h3,
              send, rawSend]
        · simp [broadcastExceptList, ih, List.filter_cons, h1, h2]

/-- Every message that broadcastExcept emits is the broadcast message. -/
theorem broadcastExceptList_msg (dead : WS → Bool) (sender : WS)
    (msg : ServerMessage) (l : List (WS × Session))
    (x : WS × ServerMessage) (hx : x ∈ broadcastExceptList dead sender msg l) :
    x.2 = msg := by
  rw [broadcastExceptList_eq] at hx
  rcases List.mem_map.mp hx with ⟨p, _, rfl⟩
  rfl

/-- applyChanges with a healthy store, in closed form. -/
theorem applyChanges_ok (room : SyncRoom) (cs : List EncryptedChange) :
    applyChanges okStorage room cs =
      ({ room with
          changes := room.changes ++ assignVersions room.currentVersion cs,
          currentVersion := room.currentVersion + cs.length,
          storage :=
            { version := some (room.currentVersion + cs.length),
              changes := some (room.changes ++ assignVersions room.currentVersion cs) } },
       false) := by
  simp [applyChanges, okStorage, applyLoop_spec]

/-- applyChanges raises exactly when one of the two puts fails. -/
theorem applyChanges_snd (sb : StorageBehavior) (room : SyncRoom)
    (cs : List EncryptedChange) :
    (applyChanges sb room cs).2 = !(sb.putVersionOk && sb.putChangesOk) := by
  unfold applyChanges
  cases h1 : sb.putVersionOk <;> cases h2 : sb.putChangesOk <;> simp [h1, h2]

/-- The invariant survives one applyChanges against a healthy store. -/
theorem versionInvariant_applyChanges_ok (room : SyncRoom)
    (cs : List EncryptedChange) (h : VersionInvariant room) :
    VersionInvariant (applyChanges okStorage room cs).1 := by
  rcases h with ⟨h1, h2⟩
  rw [applyChanges_ok]
  refine ⟨?_, ?_⟩
  · simp only [List.length_append, assignVersions_length, h1]
    push_cast
    ring
  · simp only [List.map_append, h2, assignVersions_map_version, h1,
      List.length_append, assignVersions_length]
    exact versionRange_append _ _

/-- The invariant survives one push step (rejected or applied). -/
theorem versionInvariant_pushStep (room : SyncRoom)
    (p : WS × Session × List EncryptedChange) (h : VersionInvariant room) :
    VersionInvariant (pushStep room p) := by
  unfold pushStep handlePush
  by_cases hj : notJoined p.2.1
  · simpa [hj] using h
  · have hsnd : (applyChanges okStorage room p.2.2).2 = false := by
      simp [applyChanges_snd, okStorage]
    simpa [hj, hsnd] using versionInvariant_applyChanges_ok room p.2.2 h

/-- The invariant survives any sequence of pushes. -/
theorem versionInvariant_pushSeq
    (pushes : List (WS × Session × List EncryptedChange)) (room : SyncRoom)
    (h : VersionInvariant room) : VersionInvariant (pushSeq room pushes) := by
  induction pushes generalizing room with
  | nil => exact h
  | cons p ps ih =>
      simp only [pushSeq, List.foldl_cons]
      exact ih _ (versionInvariant_pushStep room p h)

/-- handlePull's outgoing messages depend only on the log and counter. -/
theorem handlePull_out_congr (dead : WS → Bool) (ws : WS) (s : Session)
    (v : Int) (ra rb : SyncRoom) (hc : ra.changes = rb.changes)
    (hv : ra.currentVersion = rb.currentVersion) :
    (handlePull dead ws s ra v).2 = (handlePull dead ws s rb v).2 := by
  by_cases h : notJoined s <;> simp [handlePull, h, hc, hv]

/-- C1: for every sequence of push operations applied to one workspace
coordinator instance starting from the empty state, the versions assigned to
the records in the log are exactly 1, 2, ..., currentVersion in append
order — strictly increasing, no duplicates, no gaps — regardless of how the
pushed records are grouped into batches. -/
theorem push_versions_exactly_one_to_current
    (pushes : List (WS × Session × List EncryptedChange)) :
    (pushSeq initialRoom pushes).currentVersion =
      ((pushSeq initialRoom pushes).changes.length : Int) ∧
    (pushSeq initialRoom pushes).changes.map (fun c => c.version) =
      versionRange (pushSeq initialRoom pushes).changes.length ∧
    List.Pairwise (fun a b => a < b)
      ((pushSeq initialRoom pushes).changes.map (fun c => c.version)) ∧
    ∀ k : Int,
      k ∈ (pushSeq initialRoom pushes).changes.map (fun c => c.version) ↔
        1 ≤ k ∧ k ≤ (pushSeq initialRoom pushes).currentVersion := by
  obtain ⟨h1, h2⟩ :=
    versionInvariant_pushSeq pushes initialRoom ⟨rfl, rfl⟩
  refine ⟨h1, h2, ?_, ?_⟩
  · rw [h2]
    exact pairwise_versionRange _
  · intro k
    rw [h2, mem_versionRange, h1]

/-- C1 witness at a concrete push sequence. -/
theorem push_versions_exactly_one_to_current_witness :
    (1 : Int) ∈ (pushSeq initialRoom [(0, sessJoined, [c0])]).changes.map
        (fun c => c.version) ↔
      1 ≤ (1 : Int) ∧
        (1 : Int) ≤ (pushSeq initialRoom [(0, sessJoined, [c0])]).currentVersion :=
  (push_versions_exactly_one_to_current [(0, sessJoined, [c0])]).2.2.2 1

/-- C2: a push by an authenticated and joined session with k records
processes them in submitted order, assigns version currentVersion+1 to each
while incrementing the counter (any client-supplied version is overwritten),
appends them to the log, and acknowledges the submitter with the new
currentVersion, which is the old one plus k. -/
theorem handlePush_orders_assigns_acks (dead : WS → Bool) (ws : WS)
    (session : Session) (room : SyncRoom) (cs : List EncryptedChange)
    (hjoined : notJoined session = false) (hlive : dead ws = false) :
    (handlePush okStorage dead ws session room cs).1.changes =
      room.changes ++ assignVersions room.currentVersion cs ∧
    (handlePush okStorage dead ws session room cs).1.currentVersion =
      room.currentVersion + cs.length ∧
    (assignVersions room.currentVersion cs).map (fun c => c.version) =
      (List.range cs.length).map
        (fun (i : Nat) => room.currentVersion + (i : Int) + 1) ∧
    (∀ g : EncryptedChange → Int,
      assignVersions room.currentVersion
          (cs.map (fun c => { c with version := g c })) =
        assignVersions room.currentVersion cs) ∧
    (handlePush okStorage dead ws session room cs).2.1 =
      (ws, ServerMessage.pushed (room.currentVersion + cs.length)) ::
        broadcastExceptList dead ws
          (ServerMessage.changes (assignVersions room.currentVersion cs)
            (room.currentVersion + cs.length))
          room.sessions := by
  have hsnd : (applyChanges okStorage room cs).2 = false := by
    simp [applyChanges_snd, okStorage]
  refine ⟨?_, ?_, assignVersions_map_version _ _,
    fun g => assignVersions_version_ignored _ g _, ?_⟩ <;>
    simp [handlePush, hjoined, hsnd, applyChanges_ok, send, rawSend, hlive]

/-- C2 witness: one concrete push against the empty room. -/
theorem handlePush_orders_assigns_acks_witness :
    notJoined sessJoined = false ∧
    (handlePush okStorage noDead 0 sessJoined initialRoom [c0]).1.currentVersion =
      initialRoom.currentVersion + ([c0] : List EncryptedChange).length :=
  ⟨by decide,
   (handlePush_orders_assigns_acks noDead 0 sessJoined initialRoom [c0]
     (by decide) rfl).2.1⟩

/-- C3: for an authenticated and joined session, pull(sinceVersion = v)
returns exactly the log records with version > v, in strictly increasing
version order, plus currentVersion; it mutates nothing, so repeating it
yields the identical result. -/
theorem handlePull_filters_sorted_pure (dead : WS → Bool) (ws : WS)
    (session : Session) (room : SyncRoom) (v : Int)
    (hjoined : notJoined session = false) (hlive : dead ws = false)
    (hinv : VersionInvariant room) :
    handlePull dead ws session room v =
      (room,
       [(ws, ServerMessage.changes
               (room.changes.filter (fun c => c.version > v))
               room.currentVersion)]) ∧
    List.Pairwise (fun a b => a < b)
      ((room.changes.filter (fun c => c.version > v)).map (fun c => c.version)) ∧
    handlePull dead ws session (handlePull dead ws session room v).1 v =
      handlePull dead ws session room v := by
  have h1 : handlePull dead ws session room v =
      (room,
       [(ws, ServerMessage.changes
               (room.changes.filter (fun c => c.version > v))
               room.currentVersion)]) := by
    simp [handlePull, hjoined, send, rawSend, hlive]
  refine ⟨h1, ?_, by simp [h1]⟩
  have hp : List.Pairwise (fun a b => a < b)
      (room.changes.map (fun c => c.version)) := by
    rw [hinv.2]
    exact pairwise_versionRange _
  exact hp.sublist ((room.changes.filter_sublist).map _)

/-- C3 witness: a concrete pull against a one-record room. -/
theorem handlePull_filters_sorted_pure_witness :
    notJoined sessJoined = false ∧
    handlePull noDead 0 sessJoined roomOne 0 =
      (roomOne,
       [(0, ServerMessage.changes
              (roomOne.changes.filter (fun c => c.version > 0))
              roomOne.currentVersion)]) :=
  ⟨by decide,
   (handlePull_filters_sorted_pure noDead 0 sessJoined roomOne 0 (by decide) rfl
     ⟨by decide, by decide⟩).1⟩

/-- C4: a push or pull from a session that has not joined is rejected with
NOT_JOINED, a join from an unauthenticated session is rejected with
NOT_AUTHENTICATED, and a rejected push leaves the room — log, counter and
storage — untouched. -/
theorem prejoin_and_preauth_rejections (sb : StorageBehavior)
    (dead : WS → Bool) (ws : WS) (s1 s2 : Session) (room : SyncRoom)
    (cs : List EncryptedChange) (v : Int) (wid : String)
    (h1 : jsTruthyStr s1.workspaceId = false) (h2 : s2.accountId = "")
    (hlive : dead ws = false) :
    handlePush sb dead ws s1 room cs =
      (room,
       [(ws, ServerMessage.error "NOT_JOINED" "Must join a workspace first")],
       false) ∧
    handlePull dead ws s1 room v =
      (room,
       [(ws, ServerMessage.error "NOT_JOINED" "Must join a workspace first")]) ∧
    handleJoin dead ws s2 room wid =
      (room,
       [(ws, ServerMessage.error "NOT_AUTHENTICATED" "Must authenticate first")]) := by
  have hnj : notJoined s1 = true := by simp [notJoined, h1]
  refine ⟨?_, ?_, ?_⟩ <;>
    simp [handlePush, handlePull, handleJoin, hnj, h2, sendError, send,
      rawSend, hlive]

/-- C4 witness: a fresh unauthenticated session is rejected concretely. -/
theorem prejoin_and_preauth_rejections_witness :
    jsTruthyStr sessUnauth.workspaceId = false ∧
    handlePush okStorage noDead 0 sessUnauth initialRoom [c0] =
      (initialRoom,
       [(0, ServerMessage.error "NOT_JOINED" "Must join a workspace first")],
       false) :=
  ⟨rfl,
   (prejoin_and_preauth_rejections okStorage noDead 0 sessUnauth sessUnauth
     initialRoom [c0] 0 "ws-1" rfl rfl rfl).1⟩

/-- C5: whenever a push acknowledgment is emitted, the updated version
counter and the full log have been persisted to the durable store in the
same step; and when a persistence put raises, the push emits neither a
pushed acknowledgment nor any changes broadcast. -/
theorem push_persists_before_ack (sb : StorageBehavior) (dead : WS → Bool)
    (ws : WS) (session : Session) (room : SyncRoom)
    (cs : List EncryptedChange) :
    (∀ w vv,
      (w, ServerMessage.pushed vv) ∈ (handlePush sb dead ws session room cs).2.1 →
      (handlePush sb dead ws session room cs).1.storage.version =
          some (handlePush sb dead ws session room cs).1.currentVersion ∧
        (handlePush sb dead ws session room cs).1.storage.changes =
          some (handlePush sb dead ws session room cs).1.changes) ∧
    ((sb.putVersionOk = false ∨ sb.putChangesOk = false) →
      (∀ w vv,
        (w, ServerMessage.pushed vv) ∉ (handlePush sb dead ws session room cs).2.1) ∧
      (∀ w l vv,
        (w, ServerMessage.changes l vv) ∉ (handlePush sb dead ws session room cs).2.1)) := by
  by_cases hj : notJoined session
  · have hout : (handlePush sb dead ws session room cs).2.1 =
        send dead ws (ServerMessage.error "NOT_JOINED" "Must join a workspace first") := by
      simp [handlePush, hj, sendError]
    rw [hout]
    by_cases hd : dead ws <;>
      simp [send, rawSend, hd]
  · by_cases h1 : sb.putVersionOk
    · by_cases h2 : sb.putChangesOk
      · have hsb : sb = okStorage := by
          cases sb
          simp_all [okStorage]
        subst hsb
        constructor
        · intro w vv _
          constructor <;> simp [handlePush, hj, applyChanges_ok]
        · rintro (h | h) <;> simp [okStorage] at h
      · have hth : (applyChanges sb room cs).2 = true := by
          simp [applyChanges_snd, h1, h2]
        have hout : (handlePush sb dead ws session room cs).2.1 = [] := by
          simp [handlePush, hj, hth]
        rw [hout]
        simp
    · have hth : (applyChanges sb room cs).2 = true := by
        simp [applyChanges_snd, h1]
      have hout : (handlePush sb dead ws session room cs).2.1 = [] := by
        simp [handlePush, hj, hth]
      rw [hout]
      simp

/-- C5 witness: with a failing version put, no acknowledgment is emitted. -/
theorem push_persists_before_ack_witness :
    (0, ServerMessage.pushed 1) ∉
      (handlePush { putVersionOk := false, putChangesOk := true } noDead 0
        sessJoined initialRoom [c0]).2.1 :=
  ((push_persists_before_ack { putVersionOk := false, putChangesOk := true }
      noDead 0 sessJoined initialRoom [c0]).2 (Or.inl rfl)).1 0 1

/-- C6: after a completed push, the state reloaded from durable storage at
instance startup reproduces the same log and version counter, so any pull
answers identically before and after the restart. -/
theorem restart_reload_preserves (dead : WS → Bool) (ws : WS)
    (session : Session) (room : SyncRoom) (cs : List EncryptedChange)
    (hjoined : notJoined session = false) :
    (handlePush okStorage dead ws session room cs).2.2 = false ∧
    (restoreFromStorage
        (handlePush okStorage dead ws session room cs).1.storage).changes =
      (handlePush okStorage dead ws session room cs).1.changes ∧
    (restoreFromStorage
        (handlePush okStorage dead ws session room cs).1.storage).currentVersion =
      (handlePush okStorage dead ws session room cs).1.currentVersion ∧
    ∀ (dead2 : WS → Bool) (ws2 : WS) (s2 : Session) (v : Int),
      (handlePull dead2 ws2 s2
          (restoreFromStorage
            (handlePush okStorage dead ws session room cs).1.storage) v).2 =
        (handlePull dead2 ws2 s2
          (handlePush okStorage dead ws session room cs).1 v).2 := by
  have hc : (restoreFromStorage
      (handlePush okStorage dead ws session room cs).1.storage).changes =
      (handlePush okStorage dead ws session room cs).1.changes := by
    simp [handlePush, hjoined, applyChanges_ok, restoreFromStorage]
  have hv : (restoreFromStorage
      (handlePush okStorage dead ws session room cs).1.storage).currentVersion =
      (handlePush okStorage dead ws session room cs).1.currentVersion := by
    simp [handlePush, hjoined, applyChanges_ok, restoreFromStorage]
  refine ⟨?_, hc, hv, ?_⟩
  · simp [handlePush, hjoined, applyChanges_ok]
  · intro dead2 ws2 s2 v
    exact handlePull_out_congr dead2 ws2 s2 v _ _ hc hv

/-- C6 witness: a concrete push, then reload, preserves the log. -/
theorem restart_reload_preserves_witness :
    notJoined sessJoined = false ∧
    (restoreFromStorage
        (handlePush okStorage noDead 0 sessJoined initialRoom [c0]).1.storage).changes =
      (handlePush okStorage noDead 0 sessJoined initialRoom [c0]).1.changes :=
  ⟨by decide,
   (restart_reload_preserves noDead 0 sessJoined initialRoom [c0] (by decide)).2.1⟩

/-- C7 counterexample: a stateless GET /changes carrying no credential at
all, against a verifier that accepts no token, still reads and returns the
log — it is not rejected, contradicting the claim that every stateless
fallback request performs an implicit authenticate before executing. -/
theorem get_changes_without_credential_reads_log :
    (fetch (fun _ => none) okStorage noDead 99 "t1" getNoAuthReq roomOne).2.1 =
      FetchResult.changesResult [c0v1] 1 ∧
    (fetch (fun _ => none) okStorage noDead 99 "t1" getNoAuthReq roomOne).2.1 ≠
      FetchResult.unauthorizedResult "Unauthorized" := by
  exact ⟨by decide, by decide⟩

/-- C7 amended: only the stateless POST /changes verifies the bearer
credential before executing the push — a POST without a valid bearer
credential is rejected with 401 and neither mutates the log nor broadcasts;
the stateless GET /changes performs no credential check and returns the
matching log suffix to any caller without mutating anything. -/
theorem stateless_post_verifies_get_does_not (verify : String → Option AuthToken)
    (sb : StorageBehavior) (dead : WS → Bool) (nw : WS) (nowIso : String)
    (req : FetchRequest) (room : SyncRoom)
    (hpath : req.pathname = "/changes") (hup : req.upgrade = false) :
    (req.method = Method.POST → bearerToken req.authHeader = none →
      fetch verify sb dead nw nowIso req room =
        (room, FetchResult.unauthorizedResult "Unauthorized", [])) ∧
    (∀ t, req.method = Method.POST → bearerToken req.authHeader = some t →
      verify t = none →
      fetch verify sb dead nw nowIso req room =
        (room, FetchResult.unauthorizedResult "Invalid token", [])) ∧
    (req.method = Method.GET →
      fetch verify sb dead nw nowIso req room =
        (room,
         FetchResult.changesResult
           (room.changes.filter
             (fun c => versionGt c.version (sinceOfParam req.sinceParam)))
           room.currentVersion,
         [])) := by
  refine ⟨?_, ?_, ?_⟩
  · intro hm hb
    simp [fetch, hpath, hup, hm, hb]
  · intro t hm hb hv
    simp [fetch, hpath, hup, hm, hb, hv]
  · intro hm
    simp [fetch, hpath, hup, hm]

/-- C7 amended witness: a concrete POST with no Authorization header is
rejected without touching the room. -/
theorem stateless_post_verifies_witness :
    postNoAuthReq.pathname = "/changes" ∧
    bearerToken postNoAuthReq.authHeader = none ∧
    fetch (fun _ => none) okStorage noDead 99 "t1" postNoAuthReq roomOne =
      (roomOne, FetchResult.unauthorizedResult "Unauthorized", []) :=
  ⟨rfl, rfl,
   (stateless_post_verifies_get_does_not (fun _ => none) okStorage noDead 99
     "t1" postNoAuthReq roomOne rfl rfl).1 rfl rfl⟩

/-- C8: a broadcast of a push delivers the message to exactly the live
joined sessions other than the sender; a dead channel's send failure is
caught inside the loop (never escalated — the function still returns its
delivery list) and does not prevent delivery to any other live joined
session, whatever the set of dead sockets is. -/
theorem broadcastExcept_isolates_dead_channels (dead : WS → Bool)
    (sender : WS) (room : SyncRoom) (msg : ServerMessage) :
    broadcastExcept dead sender room msg =
      (room.sessions.filter (fun p =>
          p.1 ≠ sender ∧ jsTruthyStr p.2.workspaceId = true ∧
            dead p.1 = false)).map
        (fun p => (p.1, msg)) ∧
    ∀ p ∈ room.sessions, p.1 ≠ sender → jsTruthyStr p.2.workspaceId = true →
      dead p.1 = false →
      (p.1, msg) ∈ broadcastExcept dead sender room msg := by
  refine ⟨broadcastExceptList_eq dead sender msg room.sessions, ?_⟩
  intro p hp hne hj hl
  rw [broadcastExcept, broadcastExceptList_eq]
  exact List.mem_map.mpr
    ⟨p, List.mem_filter.mpr ⟨hp, by simp [hne, hj, hl]⟩, rfl⟩

/-- C8 witness: with socket 1 dead, socket 2 still receives the message. -/
theorem broadcastExcept_isolates_witness :
    (2, ServerMessage.pushed 5) ∈
      broadcastExcept deadOne 0 roomThree (ServerMessage.pushed 5) :=
  (broadcastExcept_isolates_dead_channels deadOne 0 roomThree
      (ServerMessage.pushed 5)).2 (2, sessJoined2) (by decide) (by decide)
    (by decide) (by decide)

/-- C9: authenticate is idempotent — re-authenticating with the same valid
token overwrites only the identity fields (accountId keeps its value, siteId
is re-derived from accountId and the current time, all other session fields
are untouched) and re-acknowledges; a failed authenticate emits AUTH_FAILED
and leaves the whole room, its log and its storage, exactly unchanged. -/
theorem handleAuth_idempotent_and_pure (verify : String → Option AuthToken)
    (now : Nat) (dead : WS → Bool) (ws : WS) (session : Session)
    (room : SyncRoom) (token : String) (hlive : dead ws = false) :
    (∀ p, verify token = some p →
      handleAuth verify now dead ws session room token =
        ({ room with
            sessions :=
              updateSession room.sessions ws (authedSession session p.accountId now) },
         [(ws, ServerMessage.authenticated p.accountId)])) ∧
    (∀ p, verify token = some p → session.accountId = p.accountId →
      (authedSession session p.accountId now).accountId = session.accountId ∧
      (authedSession session p.accountId now).workspaceId = session.workspaceId ∧
      (authedSession session p.accountId now).joinedAt = session.joinedAt ∧
      (authedSession session p.accountId now).lastSeen = session.lastSeen) ∧
    (verify token = none →
      handleAuth verify now dead ws session room token =
        (room,
         [(ws, ServerMessage.error "AUTH_FAILED" "Invalid or expired token")])) := by
  refine ⟨?_, ?_, ?_⟩
  · intro p hp
    simp [handleAuth, hp, send, rawSend, hlive]
  · intro p hp hacc
    simp [authedSession, hacc]
  · intro hn
    simp [handleAuth, hn, sendError, send, rawSend, hlive]

/-- C9 witness: a concrete re-authentication with a fixed verifier. -/
theorem handleAuth_idempotent_witness :
    verifyFix "tok-good" = some { accountId := "acc-1", exp := 99, iat := 0 } ∧
    sessJoined.accountId = "acc-1" ∧
    handleAuth verifyFix 5 noDead 0 sessJoined initialRoom "tok-good" =
      ({ initialRoom with
          sessions :=
            updateSession initialRoom.sessions 0 (authedSession sessJoined "acc-1" 5) },
       [(0, ServerMessage.authenticated "acc-1")]) :=
  ⟨rfl, rfl,
   (handleAuth_idempotent_and_pure verifyFix 5 noDead 0 sessJoined initialRoom
     "tok-good" rfl).1 { accountId := "acc-1", exp := 99, iat := 0 } rfl⟩

/-- C10 counterexample: a "since" parameter that is present but empty is not
a parsable integer (parseInt of "" is NaN), yet the code substitutes the
default string "0" before parsing and returns the full log with version 1 —
not the empty changes list the claim predicts for every present
non-parsable parameter. -/
theorem get_empty_since_returns_full_log :
    jsParseInt "" = none ∧
    (fetch (fun _ => none) okStorage noDead 99 "t1" getEmptySinceReq roomOne).2.1 =
      FetchResult.changesResult [c0v1] 1 ∧
    (fetch (fun _ => none) okStorage noDead 99 "t1" getEmptySinceReq roomOne).2.1 ≠
      FetchResult.changesResult [] roomOne.currentVersion := by
  exact ⟨rfl, by decide, by decide⟩

/-- C10 amended: on GET /changes, a "since" parameter that is present,
nonempty and not parsable parses to NaN, every version > NaN comparison is
false, and the response is the empty changes list plus the true
currentVersion — neither an error nor the full log.  (A present-but-empty
parameter instead falls back to the default string "0".) -/
theorem get_unparsable_since_empty_changes (verify : String → Option AuthToken)
    (sb : StorageBehavior) (dead : WS → Bool) (nw : WS) (nowIso : String)
    (room : SyncRoom) (s : String) (auth : Option String)
    (hne : s ≠ "") (hnan : jsParseInt s = none) :
    fetch verify sb dead nw nowIso
      { upgrade := false, method := Method.GET, pathname := "/changes",
        sinceParam := some s, authHeader := auth, body := [] } room =
      (room, FetchResult.changesResult [] room.currentVersion, []) := by
  have hsince : sinceOfParam (some s) = none := by
    simp [sinceOfParam, hne, hnan]
  simp [fetch, hsince, versionGt]

/-- C10 amended witness: since=abc yields the empty list concretely. -/
theorem get_unparsable_since_witness :
    ("abc" : String) ≠ "" ∧ jsParseInt "abc" = none ∧
    fetch (fun _ => none) okStorage noDead 99 "t1"
      { upgrade := false, method := Method.GET, pathname := "/changes",
        sinceParam := some "abc", authHeader := none, body := [] } roomOne =
      (roomOne, FetchResult.changesResult [] roomOne.currentVersion, []) :=
  ⟨by decide, by decide,
   get_unparsable_since_empty_changes (fun _ => none) okStorage noDead 99 "t1"
     roomOne "abc" none (by decide) (by decide)⟩

end ChoraCloud
